import Mathlib

/-!
Verification of the SLA time engine of the support-ticket system
(src/desktop.py): the business-hours clock add_business_hours, the
breach-detection scan check_sla_breaches of SLAService, and the
compliance report generate_sla_report of SLAService.

Modelling conventions:
* an instant (Python datetime) is a rational number of hours since an
  epoch placed at a Monday 00:00, so that Python weekday() = 0 on the
  epoch day; datetimes have microsecond precision, which rationals cover;
* a timedelta of one day is 24 hours, a timedelta of h hours is h, and a
  difference of datetimes converted to hours (total_seconds() / 3600) is
  the plain difference of the two rationals;
* Python float hour arithmetic is modelled with exact rationals;
* the while loop of add_business_hours is modelled as a fuel-indexed step
  function addBHFuel, one unit of fuel per iteration; add_business_hours
  runs it with fuel that is proved sufficient (theorem addBHFuel_total:
  the loop always terminates), so the fallback value is never reached;
* the SQLAlchemy queries of SLAService are modelled as list filters over
  an in-memory snapshot of the ticket store, and the query instant
  datetime.utcnow() is passed in as the parameter now;
* breach_duration is kept as the numeric difference now - due in hours;
  the source stores str() of the corresponding timedelta, a change of
  presentation only.
-/

namespace SLA

/-- Day number of an instant: the Python date ordinal, relative to the
Monday epoch. -/
def dayIndex (t : ℚ) : ℤ := ⌊t / 24⌋

/-- Python datetime.weekday(): 0 = Monday, ..., 5 = Saturday, 6 = Sunday. -/
def weekday (t : ℚ) : ℤ := dayIndex t % 7

/-- Python datetime.hour: the hour-of-day component, always in 0..23. -/
def hourOf (t : ℚ) : ℤ := ⌊t⌋ - 24 * dayIndex t

/-- Python datetime.minute: the minute component, always in 0..59. -/
def minuteOf (t : ℚ) : ℤ := ⌊60 * t⌋ - 60 * ⌊t⌋

/-- current_time += timedelta(days=1) followed by
current_time.replace(hour=9, minute=0, second=0, microsecond=0):
09:00 on the calendar day after the day of t. -/
def nextDayStart (t : ℚ) : ℚ := 24 * ((dayIndex t : ℚ) + 1) + 9

/-- current_time.replace(hour=9, minute=0, second=0, microsecond=0):
09:00 on the day of t. -/
def sameDayStart (t : ℚ) : ℚ := 24 * (dayIndex t : ℚ) + 9

/-- hours_left_today = 18 - current_time.hour - (current_time.minute / 60.0). -/
def hoursLeftToday (t : ℚ) : ℚ := 18 - (hourOf t : ℚ) - (minuteOf t : ℚ) / 60

/-- Number of day-advancing loop iterations (iterations that neither exit
the loop nor consume remaining hours) before the next consuming iteration:
0 on a weekday before 18:00, up to 3 from a Friday at or after 18:00. -/
def dayPenalty (t : ℚ) : ℕ :=
  if 5 ≤ weekday t then (7 - weekday t).toNat
  else if 18 ≤ hourOf t then (if weekday t = 4 then 3 else 1)
  else 0

/-- Upper bound on the number of loop iterations of add_business_hours
still to run from state (t, r): every consuming iteration removes at least
one minute of remaining work, and at most three day-advancing iterations
separate consuming ones. -/
def bhMeasure (t r : ℚ) : ℕ := 4 * (⌈60 * r⌉).toNat + dayPenalty t

/-- The while loop of src/desktop.py add_business_hours as a fuel-indexed
step function: one unit of fuel per loop iteration, none when the fuel
runs out before the loop exits.  Branches in source order:
while remaining_hours > 0: skip weekend days; snap a before-09:00 time to
09:00 the same day and consume there; push an at-or-after-18:00 time to
the next day at 09:00; otherwise consume min(remaining, hours left today). -/
def addBHFuel : ℕ → ℚ → ℚ → Option ℚ
  | 0, _, _ => none
  | n + 1, t, r =>
    if r ≤ 0 then some t
    else if 5 ≤ weekday t then addBHFuel n (nextDayStart t) r
    else if hourOf t < 9 then
      if r ≤ hoursLeftToday (sameDayStart t) then some (sameDayStart t + r)
      else addBHFuel n (nextDayStart (sameDayStart t)) (r - hoursLeftToday (sameDayStart t))
    else if 18 ≤ hourOf t then addBHFuel n (nextDayStart t) r
    else
      if r ≤ hoursLeftToday t then some (t + r)
      else addBHFuel n (nextDayStart t) (r - hoursLeftToday t)

/-- src/desktop.py add_business_hours(start_time, hours): run the
clamp-and-consume loop, with fuel that theorem addBHFuel_total proves
sufficient, so the fallback start value of getD is never used and the
theorem add_business_hours_eq recovers the exact defining equation of the
loop. -/
def add_business_hours (t : ℚ) (r : ℚ) : ℚ :=
  (addBHFuel (bhMeasure t r + 1) t r).getD t

/-- Associated customer of a ticket, reduced to the only field the SLA
core reads from it: customers.tier (src/models.py Customer). -/
structure Customer where
  tier : String
deriving DecidableEq

/-- src/models.py Ticket, restricted to the fields the SLA core reads.
first_response_at and resolved_at are nullable timestamps; customer is the
nullable associated Customer row.  The due instants are the two SLA
targets, set at creation. -/
structure Ticket where
  id : ℤ
  priority : String
  category : String
  status : String
  created_at : ℚ
  first_response_due : ℚ
  resolution_due : ℚ
  first_response_at : Option ℚ
  resolved_at : Option ℚ
  customer : Option Customer
deriving DecidableEq

/-- ticket.customer.tier if ticket.customer is present, else the string standard. -/
def customerTier (t : Ticket) : String :=
  match t.customer with
  | some c => c.tier
  | none => "standard"

/-- One entry of the list returned by check_sla_breaches. -/
structure BreachRecord where
  ticket_id : ℤ
  breach_type : String
  breach_duration : ℚ
  priority : String
  customer_tier : String
deriving DecidableEq

/-- The first query filter of check_sla_breaches:
first_response_due < current_time AND first_response_at IS NULL AND
status is not the string closed. -/
def firstResponseBreached (now : ℚ) (t : Ticket) : Bool :=
  decide (t.first_response_due < now) && decide (t.first_response_at = none)
    && decide (t.status ≠ "closed")

/-- The second query filter of check_sla_breaches:
resolution_due < current_time AND resolved_at IS NULL AND
status is not the string closed. -/
def resolutionBreached (now : ℚ) (t : Ticket) : Bool :=
  decide (t.resolution_due < now) && decide (t.resolved_at = none)
    && decide (t.status ≠ "closed")

/-- The record appended for a first-response breach of ticket t. -/
def firstResponseRecord (now : ℚ) (t : Ticket) : BreachRecord :=
  { ticket_id := t.id
    breach_type := "first_response"
    breach_duration := now - t.first_response_due
    priority := t.priority
    customer_tier := customerTier t }

/-- The record appended for a resolution breach of ticket t. -/
def resolutionRecord (now : ℚ) (t : Ticket) : BreachRecord :=
  { ticket_id := t.id
    breach_type := "resolution"
    breach_duration := now - t.resolution_due
    priority := t.priority
    customer_tier := customerTier t }

/-- src/desktop.py SLAService.check_sla_breaches: all first-response
breach records (in ticket-store order), followed by all resolution breach
records.  The db session is modelled as the list of tickets it would
return, current_time as now. -/
def check_sla_breaches (now : ℚ) (tickets : List Ticket) : List BreachRecord :=
  (tickets.filter (firstResponseBreached now)).map (firstResponseRecord now)
    ++ (tickets.filter (resolutionBreached now)).map (resolutionRecord now)

/-- Python round(x, 2): round half to even at two decimal places.  The
source rounds a float; the representation error of binary floats is not
modelled, only the documented round-half-to-even rule on the exact value. -/
def round2 (x : ℚ) : ℚ :=
  (if x * 100 - ⌊x * 100⌋ < 1 / 2 then (⌊x * 100⌋ : ℚ)
   else if 1 / 2 < x * 100 - ⌊x * 100⌋ then (⌊x * 100⌋ : ℚ) + 1
   else if ⌊x * 100⌋ % 2 = 0 then (⌊x * 100⌋ : ℚ) else (⌊x * 100⌋ : ℚ) + 1) / 100

/-- One of the two per-milestone blocks of the report dict. -/
structure SLASection where
  compliance_rate : ℚ
  tickets_met : ℕ
  avg_time_hours : ℚ
deriving DecidableEq

/-- The dict returned by generate_sla_report (period kept as the two raw
instants; isoformat() is presentation only). -/
structure SLAReport where
  start_date : ℚ
  end_date : ℚ
  total_tickets : ℕ
  first_response_sla : SLASection
  resolution_sla : SLASection
deriving DecidableEq

/-- The created_at range filter of generate_sla_report:
created_at >= start_date AND created_at <= end_date. -/
def inRange (s e : ℚ) (t : Ticket) : Bool :=
  decide (s ≤ t.created_at) && decide (t.created_at ≤ e)

/-- The optional category filter: applied only when the category argument
is truthy in Python, so None and the empty string leave the query
unfiltered. -/
def categoryMatches (category : Option String) (t : Ticket) : Bool :=
  match category with
  | none => true
  | some c => if c = "" then true else decide (t.category = c)

/-- tickets = query.all() of generate_sla_report: the stored tickets
restricted to the date range and the optional category. -/
def reportTickets (tickets : List Ticket) (s e : ℚ) (category : Option String) :
    List Ticket :=
  tickets.filter (fun t => inRange s e t && categoryMatches category t)

/-- src/desktop.py SLAService.generate_sla_report: filter by creation
range and category, then aggregate per-milestone counts, averages over the
tickets whose milestone timestamp is set, and compliance percentages,
rounding the rates and averages to two decimals. -/
def generate_sla_report (tickets : List Ticket) (start_date end_date : ℚ)
    (category : Option String) : SLAReport :=
  let tks := reportTickets tickets start_date end_date category
  let total_tickets := tks.length
  let first_response_times :=
    (tks.filter (fun t => t.first_response_at.isSome)).map
      (fun t => t.first_response_at.getD 0 - t.created_at)
  let first_response_met :=
    (tks.filter (fun t => t.first_response_at.isSome)).countP
      (fun t => decide (t.first_response_at.getD 0 ≤ t.first_response_due))
  let resolution_times :=
    (tks.filter (fun t => t.resolved_at.isSome)).map
      (fun t => t.resolved_at.getD 0 - t.created_at)
  let resolution_met :=
    (tks.filter (fun t => t.resolved_at.isSome)).countP
      (fun t => decide (t.resolved_at.getD 0 ≤ t.resolution_due))
  let avg_first_response_time : ℚ :=
    if first_response_times.length ≠ 0 then
      first_response_times.sum / first_response_times.length
    else 0
  let avg_resolution_time : ℚ :=
    if resolution_times.length ≠ 0 then
      resolution_times.sum / resolution_times.length
    else 0
  let first_response_compliance : ℚ :=
    if 0 < total_tickets then (first_response_met : ℚ) / total_tickets * 100 else 0
  let resolution_compliance : ℚ :=
    if 0 < total_tickets then (resolution_met : ℚ) / total_tickets * 100 else 0
  { start_date := start_date
    end_date := end_date
    total_tickets := total_tickets
    first_response_sla :=
      { compliance_rate := round2 first_response_compliance
        tickets_met := first_response_met
        avg_time_hours := round2 avg_first_response_time }
    resolution_sla :=
      { compliance_rate := round2 resolution_compliance
        tickets_met := resolution_met
        avg_time_hours := round2 avg_resolution_time } }

/-- Concrete sample ticket: open, never responded, never resolved, both
due instants in the past at query time 100. -/
def tkBreach : Ticket :=
  { id := 1
    priority := "high"
    category := "technical"
    status := "open"
    created_at := 10
    first_response_due := 14
    resolution_due := 34
    first_response_at := none
    resolved_at := none
    customer := some { tier := "premium" } }

/-- Concrete sample ticket: open, responded late (10 after a due of 4)
and resolved late (30 after a due of 24), no associated customer. -/
def tkResponded : Ticket :=
  { id := 2
    priority := "low"
    category := "billing"
    status := "open"
    created_at := 0
    first_response_due := 4
    resolution_due := 24
    first_response_at := some 10
    resolved_at := some 30
    customer := none }

/-! ### Calendar component lemmas -/

theorem hourOf_nonneg (t : ℚ) : 0 ≤ hourOf t := by
  have h : ((24 : ℤ) : ℚ) * (⌊t / 24⌋ : ℚ) ≤ t := by
    push_cast
    nlinarith [Int.floor_le (t / 24)]
  have h2 : (24 * ⌊t / 24⌋ : ℤ) ≤ ⌊t⌋ := by
    rw [Int.le_floor]
    push_cast at h ⊢
    linarith
  unfold hourOf dayIndex
  omega

theorem hourOf_lt (t : ℚ) : hourOf t < 24 := by
  have h : t < ((24 * ⌊t / 24⌋ + 24 : ℤ) : ℚ) := by
    push_cast
    nlinarith [Int.lt_floor_add_one (t / 24)]
  have h2 : ⌊t⌋ < 24 * ⌊t / 24⌋ + 24 := by
    rw [Int.floor_lt]
    exact h
  unfold hourOf dayIndex
  omega

theorem minuteOf_nonneg (t : ℚ) : 0 ≤ minuteOf t := by
  have h : (60 * ⌊t⌋ : ℤ) ≤ ⌊60 * t⌋ := by
    rw [Int.le_floor]
    push_cast
    nlinarith [Int.floor_le t]
  unfold minuteOf
  omega

theorem minuteOf_lt (t : ℚ) : minuteOf t < 60 := by
  have h : ⌊60 * t⌋ < 60 * ⌊t⌋ + 60 := by
    rw [Int.floor_lt]
    push_cast
    nlinarith [Int.lt_floor_add_one t]
  unfold minuteOf
  omega

theorem weekday_nonneg (t : ℚ) : 0 ≤ weekday t :=
  Int.emod_nonneg _ (by norm_num)

theorem weekday_lt (t : ℚ) : weekday t < 7 :=
  Int.emod_lt_of_pos _ (by norm_num)

theorem dayIndex_int_add (k : ℤ) (x : ℚ) : ⌊(24 * (k : ℚ) + x) / 24⌋ = k + ⌊x / 24⌋ := by
  have h : (24 * (k : ℚ) + x) / 24 = x / 24 + (k : ℚ) := by ring
  rw [h, Int.floor_add_int, add_comm]

theorem dayIndex_dayStart (k : ℤ) : dayIndex (24 * (k : ℚ) + 9) = k := by
  unfold dayIndex
  rw [dayIndex_int_add k 9]
  norm_num

theorem hourOf_dayStart (k : ℤ) : hourOf (24 * (k : ℚ) + 9) = 9 := by
  unfold hourOf
  rw [dayIndex_dayStart]
  have : (24 * (k : ℚ) + 9) = ((24 * k + 9 : ℤ) : ℚ) := by push_cast; ring
  rw [this, Int.floor_intCast]
  ring

theorem minuteOf_dayStart (k : ℤ) : minuteOf (24 * (k : ℚ) + 9) = 0 := by
  unfold minuteOf
  have h1 : (24 * (k : ℚ) + 9) = ((24 * k + 9 : ℤ) : ℚ) := by push_cast; ring
  rw [h1]
  have h2 : (60 : ℚ) * ((24 * k + 9 : ℤ) : ℚ) = ((60 * (24 * k + 9) : ℤ) : ℚ) := by
    push_cast; ring
  rw [h2, Int.floor_intCast, Int.floor_intCast]
  ring

theorem hoursLeftToday_dayStart (k : ℤ) : hoursLeftToday (24 * (k : ℚ) + 9) = 9 := by
  unfold hoursLeftToday
  rw [hourOf_dayStart, minuteOf_dayStart]
  norm_num

theorem nextDayStart_eq (t : ℚ) : nextDayStart t = 24 * ((dayIndex t + 1 : ℤ) : ℚ) + 9 := by
  unfold nextDayStart
  push_cast
  ring

theorem sameDayStart_eq (t : ℚ) : sameDayStart t = 24 * ((dayIndex t : ℤ) : ℚ) + 9 := rfl

theorem weekday_nextDayStart (t : ℚ) : weekday (nextDayStart t) = (weekday t + 1) % 7 := by
  unfold weekday
  rw [nextDayStart_eq, dayIndex_dayStart]
  omega

theorem hourOf_nextDayStart (t : ℚ) : hourOf (nextDayStart t) = 9 := by
  rw [nextDayStart_eq]; exact hourOf_dayStart _

theorem dayPenalty_le (t : ℚ) : dayPenalty t ≤ 3 := by
  unfold dayPenalty
  have h1 := weekday_nonneg t
  have h2 := weekday_lt t
  split_ifs <;> omega

theorem dayPenalty_nextDayStart_of_weekend (t : ℚ) (h : 5 ≤ weekday t) :
    dayPenalty (nextDayStart t) < dayPenalty t := by
  have h2 := weekday_lt t
  have h9 := hourOf_nextDayStart t
  have hw := weekday_nextDayStart t
  unfold dayPenalty
  rw [hw, h9]
  interval_cases hwt : weekday t <;> simp_all

theorem dayPenalty_nextDayStart_of_evening (t : ℚ) (h : ¬ 5 ≤ weekday t)
    (h18 : 18 ≤ hourOf t) : dayPenalty (nextDayStart t) < dayPenalty t := by
  have h1 := weekday_nonneg t
  have h9 := hourOf_nextDayStart t
  have hw := weekday_nextDayStart t
  unfold dayPenalty
  rw [hw, h9]
  interval_cases hwt : weekday t <;> simp_all

theorem ceil_toNat_decrease (r hlt : ℚ) (k : ℤ) (hk : (k : ℚ) = 60 * hlt)
    (hk1 : 1 ≤ k) (hlt_lt : hlt < r) :
    (⌈60 * (r - hlt)⌉).toNat < (⌈60 * r⌉).toNat := by
  have he : 60 * (r - hlt) = 60 * r - (k : ℚ) := by rw [hk]; ring
  have hc : ⌈60 * (r - hlt)⌉ = ⌈60 * r⌉ - k := by
    rw [he, Int.ceil_sub_int]
  have hpos : (0 : ℚ) < 60 * (r - hlt) := by linarith
  have h1 : 1 ≤ ⌈60 * (r - hlt)⌉ := by
    rw [Int.le_ceil_iff]
    push_cast
    linarith
  omega

theorem bhMeasure_weekend (t r : ℚ) (h1 : 5 ≤ weekday t) :
    bhMeasure (nextDayStart t) r < bhMeasure t r := by
  unfold bhMeasure
  have := dayPenalty_nextDayStart_of_weekend t h1
  omega

theorem bhMeasure_evening (t r : ℚ) (h1 : ¬ 5 ≤ weekday t) (h4 : 18 ≤ hourOf t) :
    bhMeasure (nextDayStart t) r < bhMeasure t r := by
  unfold bhMeasure
  have := dayPenalty_nextDayStart_of_evening t h1 h4
  omega

theorem bhMeasure_snap (t r : ℚ) (h3 : ¬ r ≤ hoursLeftToday (sameDayStart t)) :
    bhMeasure (nextDayStart (sameDayStart t)) (r - hoursLeftToday (sameDayStart t)) <
      bhMeasure t r := by
  unfold bhMeasure
  have hd : (⌈60 * (r - hoursLeftToday (sameDayStart t))⌉).toNat < (⌈60 * r⌉).toNat := by
    apply ceil_toNat_decrease _ _ 540
    · rw [sameDayStart_eq, hoursLeftToday_dayStart]; norm_num
    · norm_num
    · exact not_le.mp h3
  have hp := dayPenalty_le (nextDayStart (sameDayStart t))
  omega

theorem bhMeasure_consume (t r : ℚ) (h2 : ¬ hourOf t < 9) (h4 : ¬ 18 ≤ hourOf t)
    (h5 : ¬ r ≤ hoursLeftToday t) :
    bhMeasure (nextDayStart t) (r - hoursLeftToday t) < bhMeasure t r := by
  unfold bhMeasure
  have hm1 := minuteOf_nonneg t
  have hm2 := minuteOf_lt t
  have hd : (⌈60 * (r - hoursLeftToday t)⌉).toNat < (⌈60 * r⌉).toNat := by
    apply ceil_toNat_decrease _ _ (1080 - 60 * hourOf t - minuteOf t)
    · unfold hoursLeftToday; push_cast; ring
    · omega
    · exact not_le.mp h5
  have hp := dayPenalty_le (nextDayStart t)
  omega

theorem addBHFuel_succ (n : ℕ) (t r : ℚ) : addBHFuel (n + 1) t r =
    if r ≤ 0 then some t
    else if 5 ≤ weekday t then addBHFuel n (nextDayStart t) r
    else if hourOf t < 9 then
      if r ≤ hoursLeftToday (sameDayStart t) then some (sameDayStart t + r)
      else addBHFuel n (nextDayStart (sameDayStart t)) (r - hoursLeftToday (sameDayStart t))
    else if 18 ≤ hourOf t then addBHFuel n (nextDayStart t) r
    else
      if r ≤ hoursLeftToday t then some (t + r)
      else addBHFuel n (nextDayStart t) (r - hoursLeftToday t) := rfl

/-- Any fuel at least bhMeasure t r + 1 completes the loop: the loop of
add_business_hours always terminates. -/
theorem addBHFuel_total : ∀ (m : ℕ) (t r : ℚ), bhMeasure t r ≤ m →
    ∃ x, addBHFuel (m + 1) t r = some x := by
  intro m
  induction m with
  | zero =>
    intro t r h
    have hro : (⌈60 * r⌉).toNat = 0 := by
      unfold bhMeasure at h
      omega
    have hr : r ≤ 0 := by
      have hc : ⌈60 * r⌉ ≤ 0 := by omega
      rw [Int.ceil_le] at hc
      push_cast at hc
      linarith
    exact ⟨t, by rw [addBHFuel_succ, if_pos hr]⟩
  | succ m ih =>
    intro t r h
    by_cases hr : r ≤ 0
    · exact ⟨t, by rw [addBHFuel_succ, if_pos hr]⟩
    · rw [addBHFuel_succ, if_neg hr]
      by_cases h1 : 5 ≤ weekday t
      · rw [if_pos h1]
        exact ih (nextDayStart t) r (by have := bhMeasure_weekend t r h1; omega)
      · rw [if_neg h1]
        by_cases h2 : hourOf t < 9
        · rw [if_pos h2]
          by_cases h3 : r ≤ hoursLeftToday (sameDayStart t)
          · exact ⟨_, by rw [if_pos h3]⟩
          · rw [if_neg h3]
            exact ih (nextDayStart (sameDayStart t)) (r - hoursLeftToday (sameDayStart t))
              (by have := bhMeasure_snap t r h3; omega)
        · rw [if_neg h2]
          by_cases h4 : 18 ≤ hourOf t
          · rw [if_pos h4]
            exact ih (nextDayStart t) r (by have := bhMeasure_evening t r h1 h4; omega)
          · rw [if_neg h4]
            by_cases h5 : r ≤ hoursLeftToday t
            · exact ⟨_, by rw [if_pos h5]⟩
            · rw [if_neg h5]
              exact ih (nextDayStart t) (r - hoursLeftToday t)
                (by have := bhMeasure_consume t r h2 h4 h5; omega)

/-- Adding fuel to a completed run does not change its result. -/
theorem addBHFuel_mono : ∀ (n : ℕ) (t r x : ℚ),
    addBHFuel n t r = some x → addBHFuel (n + 1) t r = some x := by
  intro n
  induction n with
  | zero => intro t r x h; simp [addBHFuel] at h
  | succ n ih =>
    intro t r x h
    rw [addBHFuel_succ] at h
    rw [addBHFuel_succ]
    by_cases hr : r ≤ 0
    · rwa [if_pos hr] at h ⊢
    · rw [if_neg hr] at h ⊢
      by_cases h1 : 5 ≤ weekday t
      · rw [if_pos h1] at h ⊢; exact ih _ _ _ h
      · rw [if_neg h1] at h ⊢
        by_cases h2 : hourOf t < 9
        · rw [if_pos h2] at h ⊢
          by_cases h3 : r ≤ hoursLeftToday (sameDayStart t)
          · rwa [if_pos h3] at h ⊢
          · rw [if_neg h3] at h ⊢; exact ih _ _ _ h
        · rw [if_neg h2] at h ⊢
          by_cases h4 : 18 ≤ hourOf t
          · rw [if_pos h4] at h ⊢; exact ih _ _ _ h
          · rw [if_neg h4] at h ⊢
            by_cases h5 : r ≤ hoursLeftToday t
            · rwa [if_pos h5] at h ⊢
            · rw [if_neg h5] at h ⊢; exact ih _ _ _ h

theorem addBHFuel_le {n m : ℕ} {t r x : ℚ} (hnm : n ≤ m)
    (h : addBHFuel n t r = some x) : addBHFuel m t r = some x := by
  induction m with
  | zero => cases Nat.le_zero.mp hnm; exact h
  | succ m ih =>
    rcases Nat.lt_or_ge n (m + 1) with hlt | hge
    · exact addBHFuel_mono m t r x (ih (Nat.lt_succ_iff.mp hlt))
    · have : n = m + 1 := le_antisymm hnm hge
      rwa [this] at h

/-- The loop run of add_business_hours: the chosen fuel completes and
returns the function value. -/
theorem add_business_hours_run (t r : ℚ) :
    addBHFuel (bhMeasure t r + 1) t r = some (add_business_hours t r) := by
  obtain ⟨x, hx⟩ := addBHFuel_total (bhMeasure t r) t r le_rfl
  rw [add_business_hours, hx]
  rfl

/-- add_business_hours satisfies the defining equation of the source
loop: one iteration of the clamp-and-consume body. -/
theorem add_business_hours_eq (t r : ℚ) : add_business_hours t r =
    if r ≤ 0 then t
    else if 5 ≤ weekday t then add_business_hours (nextDayStart t) r
    else if hourOf t < 9 then
      if r ≤ hoursLeftToday (sameDayStart t) then sameDayStart t + r
      else add_business_hours (nextDayStart (sameDayStart t)) (r - hoursLeftToday (sameDayStart t))
    else if 18 ≤ hourOf t then add_business_hours (nextDayStart t) r
    else
      if r ≤ hoursLeftToday t then t + r
      else add_business_hours (nextDayStart t) (r - hoursLeftToday t) := by
  have hrun := add_business_hours_run t r
  rw [addBHFuel_succ] at hrun
  by_cases hr : r ≤ 0
  · rw [if_pos hr] at hrun ⊢
    exact (Option.some.inj hrun).symm
  · rw [if_neg hr] at hrun ⊢
    by_cases h1 : 5 ≤ weekday t
    · rw [if_pos h1] at hrun ⊢
      have hb := add_business_hours_run (nextDayStart t) r
      have hm : bhMeasure (nextDayStart t) r + 1 ≤ bhMeasure t r := by
        have := bhMeasure_weekend t r h1; omega
      have := addBHFuel_le hm hb
      rw [this] at hrun
      exact (Option.some.inj hrun).symm
    · rw [if_neg h1] at hrun ⊢
      by_cases h2 : hourOf t < 9
      · rw [if_pos h2] at hrun ⊢
        by_cases h3 : r ≤ hoursLeftToday (sameDayStart t)
        · rw [if_pos h3] at hrun ⊢
          exact (Option.some.inj hrun).symm
        · rw [if_neg h3] at hrun ⊢
          have hb := add_business_hours_run (nextDayStart (sameDayStart t))
            (r - hoursLeftToday (sameDayStart t))
          have hm : bhMeasure (nextDayStart (sameDayStart t))
              (r - hoursLeftToday (sameDayStart t)) + 1 ≤ bhMeasure t r := by
            have := bhMeasure_snap t r h3; omega
          have := addBHFuel_le hm hb
          rw [this] at hrun
          exact (Option.some.inj hrun).symm
      · rw [if_neg h2] at hrun ⊢
        by_cases h4 : 18 ≤ hourOf t
        · rw [if_pos h4] at hrun ⊢
          have hb := add_business_hours_run (nextDayStart t) r
          have hm : bhMeasure (nextDayStart t) r + 1 ≤ bhMeasure t r := by
            have := bhMeasure_evening t r h1 h4; omega
          have := addBHFuel_le hm hb
          rw [this] at hrun
          exact (Option.some.inj hrun).symm
        · rw [if_neg h4] at hrun ⊢
          by_cases h5 : r ≤ hoursLeftToday t
          · rw [if_pos h5] at hrun ⊢
            exact (Option.some.inj hrun).symm
          · rw [if_neg h5] at hrun ⊢
            have hb := add_business_hours_run (nextDayStart t) (r - hoursLeftToday t)
            have hm : bhMeasure (nextDayStart t) (r - hoursLeftToday t) + 1 ≤
                bhMeasure t r := by
              have := bhMeasure_consume t r h2 h4 h5; omega
            have := addBHFuel_le hm hb
            rw [this] at hrun
            exact (Option.some.inj hrun).symm

/-! ### Claims about the business-hours clock -/

/-- C3. For every instant t, working or non-working, add_business_hours
t 0 = t: zero hours returns the start instant unchanged, with no snapping
to business hours (the loop body never runs). -/
theorem add_business_hours_zero (t : ℚ) : add_business_hours t 0 = t := by
  rw [add_business_hours_eq]
  norm_num

/-- C4, counterexample: at the concrete negative input hours = -1 the
code does not reject the call; the while condition is immediately false
and the start instant is returned as the result. -/
theorem add_business_hours_neg_no_error : add_business_hours 0 (-1) = 0 := by
  rw [add_business_hours_eq]
  norm_num

/-- C4, amended: for every start instant and every negative hours value,
add_business_hours raises no InvalidArgument error; the loop is skipped
and the start instant is returned unchanged. -/
theorem add_business_hours_neg (t r : ℚ) (h : r < 0) : add_business_hours t r = t := by
  rw [add_business_hours_eq, if_pos (le_of_lt h)]

/-- C4, witness for the amended claim at t = 3, r = -2. -/
theorem add_business_hours_neg_witness : add_business_hours 3 (-2) = 3 :=
  add_business_hours_neg 3 (-2) (by norm_num)

/-- C5. add_business_hours terminates and returns an instant for every
start instant and every non-negative (possibly fractional) hours value:
the clamp-and-consume loop, run as the fuel-indexed step function
addBHFuel, completes within some finite number of iterations and
add_business_hours returns that value. -/
theorem add_business_hours_terminates (t r : ℚ) (hr : 0 ≤ r) :
    ∃ n x, addBHFuel n t r = some x ∧ add_business_hours t r = x := by
  exact ⟨bhMeasure t r + 1, add_business_hours t r, add_business_hours_run t r, rfl⟩

/-- C5, witness at t = 0, r = 0. -/
theorem add_business_hours_terminates_witness :
    ∃ n x, addBHFuel n 0 0 = some x ∧ add_business_hours 0 0 = x :=
  add_business_hours_terminates 0 0 (by norm_num)

/-- C2. With the Mon-Fri 09:00-18:00 calendar, add_business_hours applied
to a Friday 17:00 (hour 113 of the Monday-epoch week, day 4) with hours = 2
returns Monday 10:00 of the next week (hour 178, day 7): one hour is
consumed on Friday, the weekend is skipped entirely, and one hour is
consumed on Monday. -/
theorem add_business_hours_weekend_skip : add_business_hours 113 2 = 178 := by
  have hw1 : weekday 113 = 4 := by norm_num [weekday, dayIndex]
  have hh1 : hourOf 113 = 17 := by norm_num [hourOf, dayIndex]
  have hm1 : minuteOf 113 = 0 := by norm_num [minuteOf]
  have hl1 : hoursLeftToday 113 = 1 := by rw [hoursLeftToday, hh1, hm1]; norm_num
  have hn1 : nextDayStart 113 = 129 := by norm_num [nextDayStart, dayIndex]
  have hw2 : weekday 129 = 5 := by norm_num [weekday, dayIndex]
  have hn2 : nextDayStart 129 = 153 := by norm_num [nextDayStart, dayIndex]
  have hw3 : weekday 153 = 6 := by norm_num [weekday, dayIndex]
  have hn3 : nextDayStart 153 = 177 := by norm_num [nextDayStart, dayIndex]
  have hw4 : weekday 177 = 0 := by norm_num [weekday, dayIndex]
  have hh4 : hourOf 177 = 9 := by norm_num [hourOf, dayIndex]
  have hm4 : minuteOf 177 = 0 := by norm_num [minuteOf]
  have hl4 : hoursLeftToday 177 = 9 := by rw [hoursLeftToday, hh4, hm4]; norm_num
  rw [add_business_hours_eq, hw1, hh1, hl1, hn1]
  norm_num
  rw [add_business_hours_eq, hw2, hn2, if_pos (by norm_num : (5:ℤ) ≤ 5)]
  rw [add_business_hours_eq, hw3, hn3, if_pos (by norm_num : (5:ℤ) ≤ 6)]
  rw [add_business_hours_eq, hw4, hh4, hl4]
  norm_num

/-! ### Breach-scan lemmas -/

theorem firstResponseBreached_iff (now : ℚ) (t : Ticket) :
    firstResponseBreached now t = true ↔
      (t.first_response_at = none ∧ now > t.first_response_due ∧ t.status ≠ "closed") := by
  unfold firstResponseBreached
  simp only [Bool.and_eq_true, decide_eq_true_eq, gt_iff_lt]
  tauto

theorem resolutionBreached_iff (now : ℚ) (t : Ticket) :
    resolutionBreached now t = true ↔
      (t.resolved_at = none ∧ now > t.resolution_due ∧ t.status ≠ "closed") := by
  unfold resolutionBreached
  simp only [Bool.and_eq_true, decide_eq_true_eq, gt_iff_lt]
  tauto

theorem countP_id_of_nodup (l : List Ticket) (t : Ticket) (p : Ticket → Bool)
    (hm : t ∈ l) (hn : (l.map Ticket.id).Nodup) :
    l.countP (fun x => decide (x.id = t.id) && p x) = if p t then 1 else 0 := by
  induction l with
  | nil => cases hm
  | cons a l ih =>
    rw [List.map_cons, List.nodup_cons] at hn
    rw [List.countP_cons]
    rcases List.mem_cons.mp hm with heq | hmem
    · subst heq
      have hz : l.countP (fun x => decide (x.id = t.id) && p x) = 0 := by
        rw [List.countP_eq_zero]
        intro x hx
        simp only [Bool.and_eq_true, decide_eq_true_eq, not_and]
        intro hid _
        exact absurd (by rw [← hid]; exact List.mem_map_of_mem Ticket.id hx) hn.1
      rw [hz]
      simp
    · have hne : a.id ≠ t.id := by
        intro he
        exact hn.1 (by rw [he]; exact List.mem_map_of_mem Ticket.id hmem)
      rw [ih hmem hn.2]
      simp [hne]

theorem countP_map_filter_id (tickets : List Ticket) (t : Ticket)
    (hm : t ∈ tickets) (hn : (tickets.map Ticket.id).Nodup)
    (q : Ticket → Bool) (mk : Ticket → BreachRecord) (p : BreachRecord → Bool)
    (hp : ∀ x, p (mk x) = decide (x.id = t.id)) :
    ((tickets.filter q).map mk).countP p = if q t then 1 else 0 := by
  rw [List.countP_map]
  have h1 : (tickets.filter q).countP (p ∘ mk)
      = (tickets.filter q).countP (fun x => decide (x.id = t.id)) :=
    List.countP_congr (fun x _ => by simp [Function.comp, hp x])
  rw [h1, List.countP_filter]
  exact countP_id_of_nodup tickets t q hm hn

theorem countP_map_zero (l : List Ticket) (mk : Ticket → BreachRecord)
    (p : BreachRecord → Bool) (hp : ∀ x, p (mk x) = false) :
    (l.map mk).countP p = 0 := by
  rw [List.countP_map]
  exact List.countP_eq_zero.mpr (fun a _ => by simp [Function.comp, hp a])

/-- C1. For every ticket in the input and every query instant now,
check_sla_breaches emits exactly one record with breach_type
first_response for that ticket iff first_response_at is null and
now > first_response_due and status is not closed, exactly one record with
breach_type resolution iff resolved_at is null and now > resolution_due
and status is not closed, and the total number of records mentioning the
ticket is the sum of the two indicators; hence a closed ticket past both
due instants yields zero records and a ticket meeting both conditions
yields exactly two independent records. -/
theorem check_sla_breaches_exact (tickets : List Ticket) (now : ℚ) (t : Ticket)
    (hm : t ∈ tickets) (hn : (tickets.map Ticket.id).Nodup) :
    ((check_sla_breaches now tickets).countP
        (fun r => decide (r.ticket_id = t.id) && decide (r.breach_type = "first_response"))
      = if t.first_response_at = none ∧ now > t.first_response_due ∧ t.status ≠ "closed"
          then 1 else 0)
    ∧ ((check_sla_breaches now tickets).countP
        (fun r => decide (r.ticket_id = t.id) && decide (r.breach_type = "resolution"))
      = if t.resolved_at = none ∧ now > t.resolution_due ∧ t.status ≠ "closed"
          then 1 else 0)
    ∧ ((check_sla_breaches now tickets).countP (fun r => decide (r.ticket_id = t.id))
      = (if t.first_response_at = none ∧ now > t.first_response_due ∧ t.status ≠ "closed"
          then 1 else 0)
        + (if t.resolved_at = none ∧ now > t.resolution_due ∧ t.status ≠ "closed"
          then 1 else 0)) := by
  refine ⟨?_, ?_, ?_⟩
  · unfold check_sla_breaches
    rw [List.countP_append]
    rw [countP_map_filter_id tickets t hm hn (firstResponseBreached now)
      (firstResponseRecord now) _ (fun x => by simp [firstResponseRecord])]
    rw [countP_map_zero _ (resolutionRecord now) _ (fun x => by simp [resolutionRecord])]
    rw [add_zero]
    by_cases hc : t.first_response_at = none ∧ now > t.first_response_due ∧ t.status ≠ "closed"
    · rw [if_pos hc, if_pos ((firstResponseBreached_iff now t).mpr hc)]
    · rw [if_neg hc, if_neg (fun hb => hc ((firstResponseBreached_iff now t).mp hb))]
  · unfold check_sla_breaches
    rw [List.countP_append]
    rw [countP_map_zero _ (firstResponseRecord now) _ (fun x => by simp [firstResponseRecord])]
    rw [countP_map_filter_id tickets t hm hn (resolutionBreached now)
      (resolutionRecord now) _ (fun x => by simp [resolutionRecord])]
    rw [zero_add]
    by_cases hc : t.resolved_at = none ∧ now > t.resolution_due ∧ t.status ≠ "closed"
    · rw [if_pos hc, if_pos ((resolutionBreached_iff now t).mpr hc)]
    · rw [if_neg hc, if_neg (fun hb => hc ((resolutionBreached_iff now t).mp hb))]
  · unfold check_sla_breaches
    rw [List.countP_append]
    rw [countP_map_filter_id tickets t hm hn (firstResponseBreached now)
      (firstResponseRecord now) _ (fun x => by simp [firstResponseRecord])]
    rw [countP_map_filter_id tickets t hm hn (resolutionBreached now)
      (resolutionRecord now) _ (fun x => by simp [resolutionRecord])]
    have e1 : (if firstResponseBreached now t = true then (1:ℕ) else 0)
        = if t.first_response_at = none ∧ now > t.first_response_due ∧ t.status ≠ "closed"
            then 1 else 0 := by
      by_cases hc : t.first_response_at = none ∧ now > t.first_response_due ∧ t.status ≠ "closed"
      · rw [if_pos hc, if_pos ((firstResponseBreached_iff now t).mpr hc)]
      · rw [if_neg hc, if_neg (fun hb => hc ((firstResponseBreached_iff now t).mp hb))]
    have e2 : (if resolutionBreached now t = true then (1:ℕ) else 0)
        = if t.resolved_at = none ∧ now > t.resolution_due ∧ t.status ≠ "closed"
            then 1 else 0 := by
      by_cases hc : t.resolved_at = none ∧ now > t.resolution_due ∧ t.status ≠ "closed"
      · rw [if_pos hc, if_pos ((resolutionBreached_iff now t).mpr hc)]
      · rw [if_neg hc, if_neg (fun hb => hc ((resolutionBreached_iff now t).mp hb))]
    rw [e1, e2]

/-- C1, witness at the two-ticket store with distinct ids, for the ticket
breaching both milestones at now = 100: one first-response record, one
resolution record, two records in total. -/
theorem check_sla_breaches_exact_witness :
    ((check_sla_breaches 100 [tkBreach, tkResponded]).countP
        (fun r => decide (r.ticket_id = tkBreach.id) && decide (r.breach_type = "first_response"))
      = if tkBreach.first_response_at = none ∧ (100:ℚ) > tkBreach.first_response_due
            ∧ tkBreach.status ≠ "closed" then 1 else 0)
    ∧ ((check_sla_breaches 100 [tkBreach, tkResponded]).countP
        (fun r => decide (r.ticket_id = tkBreach.id) && decide (r.breach_type = "resolution"))
      = if tkBreach.resolved_at = none ∧ (100:ℚ) > tkBreach.resolution_due
            ∧ tkBreach.status ≠ "closed" then 1 else 0)
    ∧ ((check_sla_breaches 100 [tkBreach, tkResponded]).countP
        (fun r => decide (r.ticket_id = tkBreach.id))
      = (if tkBreach.first_response_at = none ∧ (100:ℚ) > tkBreach.first_response_due
            ∧ tkBreach.status ≠ "closed" then 1 else 0)
        + (if tkBreach.resolved_at = none ∧ (100:ℚ) > tkBreach.resolution_due
            ∧ tkBreach.status ≠ "closed" then 1 else 0)) :=
  check_sla_breaches_exact [tkBreach, tkResponded] 100 tkBreach
    (by simp) (by simp [tkBreach, tkResponded])

/-- C6. In the output of check_sla_breaches, no resolution record is
followed by a first-response record (so every first-response record
precedes every resolution record), and within each breach type the
records carry the ticket ids of the breaching tickets in the same
relative order as the input (stable). -/
theorem check_sla_breaches_ordering (now : ℚ) (tickets : List Ticket) :
    List.Pairwise (fun a b : BreachRecord =>
        ¬ (a.breach_type = "resolution" ∧ b.breach_type = "first_response"))
      (check_sla_breaches now tickets)
    ∧ ((check_sla_breaches now tickets).filter
          (fun r => decide (r.breach_type = "first_response"))).map BreachRecord.ticket_id
      = (tickets.filter (firstResponseBreached now)).map Ticket.id
    ∧ ((check_sla_breaches now tickets).filter
          (fun r => decide (r.breach_type = "resolution"))).map BreachRecord.ticket_id
      = (tickets.filter (resolutionBreached now)).map Ticket.id := by
  refine ⟨?_, ?_, ?_⟩
  · unfold check_sla_breaches
    rw [List.pairwise_append]
    refine ⟨?_, ?_, ?_⟩
    · apply List.pairwise_of_forall_mem_list
      intro a ha b hb
      obtain ⟨x, hx, rfl⟩ := List.mem_map.mp ha
      simp [firstResponseRecord]
    · apply List.pairwise_of_forall_mem_list
      intro a ha b hb
      obtain ⟨y, hy, rfl⟩ := List.mem_map.mp hb
      simp [resolutionRecord]
    · intro a ha b hb
      obtain ⟨x, hx, rfl⟩ := List.mem_map.mp ha
      simp [firstResponseRecord]
  · unfold check_sla_breaches
    rw [List.filter_append, List.filter_map, List.filter_map]
    have e1 : (tickets.filter (firstResponseBreached now)).filter
        ((fun r => decide (r.breach_type = "first_response")) ∘ firstResponseRecord now)
        = tickets.filter (firstResponseBreached now) :=
      List.filter_eq_self.mpr (fun a _ => by simp [Function.comp, firstResponseRecord])
    have e2 : (tickets.filter (resolutionBreached now)).filter
        ((fun r => decide (r.breach_type = "first_response")) ∘ resolutionRecord now)
        = [] :=
      List.filter_eq_nil_iff.mpr (fun a _ => by simp [Function.comp, resolutionRecord])
    rw [e1, e2, List.map_nil, List.append_nil, List.map_map]
    exact List.map_congr_left (fun a _ => rfl)
  · unfold check_sla_breaches
    rw [List.filter_append, List.filter_map, List.filter_map]
    have e1 : (tickets.filter (firstResponseBreached now)).filter
        ((fun r => decide (r.breach_type = "resolution")) ∘ firstResponseRecord now)
        = [] :=
      List.filter_eq_nil_iff.mpr (fun a _ => by simp [Function.comp, firstResponseRecord])
    have e2 : (tickets.filter (resolutionBreached now)).filter
        ((fun r => decide (r.breach_type = "resolution")) ∘ resolutionRecord now)
        = tickets.filter (resolutionBreached now) :=
      List.filter_eq_self.mpr (fun a _ => by simp [Function.comp, resolutionRecord])
    rw [e1, e2, List.map_nil, List.nil_append, List.map_map]
    exact List.map_congr_left (fun a _ => rfl)

/-- C10. Every breach record produced by check_sla_breaches has a
strictly positive breach_duration: a record is emitted only when the due
instant is strictly before now, and its duration is now minus that due
instant. -/
theorem breach_duration_pos (now : ℚ) (tickets : List Ticket) (r : BreachRecord)
    (hr : r ∈ check_sla_breaches now tickets) : 0 < r.breach_duration := by
  unfold check_sla_breaches at hr
  rcases List.mem_append.mp hr with h | h
  · obtain ⟨x, hx, rfl⟩ := List.mem_map.mp h
    have hq := (List.mem_filter.mp hx).2
    simp only [firstResponseBreached, Bool.and_eq_true, decide_eq_true_eq] at hq
    have hlt : x.first_response_due < now := hq.1.1
    simp only [firstResponseRecord]
    linarith
  · obtain ⟨x, hx, rfl⟩ := List.mem_map.mp h
    have hq := (List.mem_filter.mp hx).2
    simp only [resolutionBreached, Bool.and_eq_true, decide_eq_true_eq] at hq
    have hlt : x.resolution_due < now := hq.1.1
    simp only [resolutionRecord]
    linarith

/-- C10, witness: the first-response record of the doubly-breached sample
ticket at now = 100 has positive duration. -/
theorem breach_duration_pos_witness :
    0 < (firstResponseRecord 100 tkBreach).breach_duration :=
  breach_duration_pos 100 [tkBreach] (firstResponseRecord 100 tkBreach)
    (by
      simp only [check_sla_breaches, List.mem_append, List.mem_map, List.mem_filter,
        List.mem_singleton]
      exact Or.inl ⟨tkBreach, ⟨rfl, by simp [tkBreach, firstResponseBreached]; norm_num⟩, rfl⟩)

/-! ### Report lemmas -/

theorem round2_zero : round2 0 = 0 := by
  unfold round2
  norm_num

theorem sum_filter_isSome (l : List Ticket) (f : Ticket → Option ℚ) (g : Ticket → ℚ) :
    ((l.filter (fun t => (f t).isSome)).map (fun t => (f t).getD 0 - g t)).sum
      = (l.map (fun t =>
          match f t with
          | some a => a - g t
          | none => 0)).sum := by
  induction l with
  | nil => rfl
  | cons a l ih =>
    by_cases hfa : (f a).isSome
    · obtain ⟨v, hv⟩ := Option.isSome_iff_exists.mp hfa
      rw [List.filter_cons_of_pos (by simp [hfa]), List.map_cons, List.sum_cons,
        List.map_cons, List.sum_cons, ih]
      simp [hv]
    · rw [List.filter_cons_of_neg (by simp [hfa]), ih, List.map_cons, List.sum_cons]
      have hz : (match f a with
          | some v => v - g a
          | none => (0 : ℚ)) = 0 := by
        cases hv : f a with
        | none => rfl
        | some v => rw [hv] at hfa; simp at hfa
      rw [hz, zero_add]

/-- C7. When the filtered ticket set of generate_sla_report is empty, the
report has total_tickets = 0 and both compliance_rate fields equal 0; the
division is guarded, so an empty input is never an error. -/
theorem generate_sla_report_empty (tickets : List Ticket) (s e : ℚ) (cat : Option String)
    (h : reportTickets tickets s e cat = []) :
    (generate_sla_report tickets s e cat).total_tickets = 0
    ∧ (generate_sla_report tickets s e cat).first_response_sla.compliance_rate = 0
    ∧ (generate_sla_report tickets s e cat).resolution_sla.compliance_rate = 0 := by
  simp only [generate_sla_report, h]
  simp [round2_zero]

/-- C7, witness at the empty store with an empty range. -/
theorem generate_sla_report_empty_witness :
    (generate_sla_report [] 0 0 none).total_tickets = 0
    ∧ (generate_sla_report [] 0 0 none).first_response_sla.compliance_rate = 0
    ∧ (generate_sla_report [] 0 0 none).resolution_sla.compliance_rate = 0 :=
  generate_sla_report_empty [] 0 0 none rfl

/-- C8, counterexample: at the concrete inverted range start_date = 1 >
end_date = 0 over a non-empty store, generate_sla_report does not fail
with InvalidArgument; it returns a normal report whose total_tickets
is 0. -/
theorem generate_sla_report_inverted_counterexample :
    (generate_sla_report [tkBreach] 1 0 none).total_tickets = 0 := by
  have h : reportTickets [tkBreach] 1 0 none = [] := by
    apply List.filter_eq_nil_iff.mpr
    intro t ht
    rw [List.mem_singleton] at ht
    subst ht
    simp only [inRange, tkBreach, Bool.and_eq_true, decide_eq_true_eq, not_and]
    rintro ⟨-, h10⟩ -
    norm_num at h10
  simp only [generate_sla_report, h]
  simp

/-- C8, amended: for every inverted range (start > end) generate_sla_report
raises no error; the date filter matches no ticket and the call returns
the normal empty-period report with total_tickets = 0, both compliance
rates 0, both averages 0 and zero met counts. -/
theorem generate_sla_report_inverted (tickets : List Ticket) (s e : ℚ)
    (cat : Option String) (h : e < s) :
    generate_sla_report tickets s e cat =
      { start_date := s
        end_date := e
        total_tickets := 0
        first_response_sla := { compliance_rate := 0, tickets_met := 0, avg_time_hours := 0 }
        resolution_sla := { compliance_rate := 0, tickets_met := 0, avg_time_hours := 0 } } := by
  have hemp : reportTickets tickets s e cat = [] := by
    apply List.filter_eq_nil_iff.mpr
    intro t ht
    simp only [inRange, Bool.and_eq_true, decide_eq_true_eq, not_and]
    rintro ⟨h1, h2⟩ _
    linarith
  simp only [generate_sla_report, hemp]
  simp [round2_zero]

/-- C8, witness for the amended claim at the range (1, 0). -/
theorem generate_sla_report_inverted_witness :
    generate_sla_report [tkBreach] 1 0 (some "technical") =
      { start_date := 1
        end_date := 0
        total_tickets := 0
        first_response_sla := { compliance_rate := 0, tickets_met := 0, avg_time_hours := 0 }
        resolution_sla := { compliance_rate := 0, tickets_met := 0, avg_time_hours := 0 } } :=
  generate_sla_report_inverted [tkBreach] 1 0 (some "technical") (by norm_num)

/-- C9. In generate_sla_report, total_tickets counts every filtered
ticket, while avg_response_time_hours is (the two-decimal rounding of)
the mean of first_response_at - created_at taken over exactly the
filtered tickets whose first_response_at is non-null: a null
first_response_at contributes nothing to numerator or denominator of the
average yet the ticket still counts in total_tickets, and a
late-but-present response still counts toward the average; analogously
for avg_resolution_time_hours with resolved_at. -/
theorem generate_sla_report_avg (tickets : List Ticket) (s e : ℚ) (cat : Option String)
    (hFR : (reportTickets tickets s e cat).countP (fun t => t.first_response_at.isSome) ≠ 0)
    (hRes : (reportTickets tickets s e cat).countP (fun t => t.resolved_at.isSome) ≠ 0) :
    (generate_sla_report tickets s e cat).total_tickets
      = (reportTickets tickets s e cat).length
    ∧ (generate_sla_report tickets s e cat).first_response_sla.avg_time_hours
      = round2 (((reportTickets tickets s e cat).map (fun t =>
            match t.first_response_at with
            | some a => a - t.created_at
            | none => 0)).sum
          / ((reportTickets tickets s e cat).countP (fun t => t.first_response_at.isSome) : ℚ))
    ∧ (generate_sla_report tickets s e cat).resolution_sla.avg_time_hours
      = round2 (((reportTickets tickets s e cat).map (fun t =>
            match t.resolved_at with
            | some a => a - t.created_at
            | none => 0)).sum
          / ((reportTickets tickets s e cat).countP (fun t => t.resolved_at.isSome) : ℚ)) := by
  refine ⟨rfl, ?_, ?_⟩
  · simp only [generate_sla_report]
    rw [List.length_map, ← List.countP_eq_length_filter, if_pos hFR]
    rw [sum_filter_isSome (reportTickets tickets s e cat)
      (fun t => t.first_response_at) (fun t => t.created_at)]
  · simp only [generate_sla_report]
    rw [List.length_map, ← List.countP_eq_length_filter, if_pos hRes]
    rw [sum_filter_isSome (reportTickets tickets s e cat)
      (fun t => t.resolved_at) (fun t => t.created_at)]

/-- C9, witness at the two-ticket store: the responded ticket enters both
averages with its late times, the never-responded ticket contributes to
neither average but is counted in total_tickets. -/
theorem generate_sla_report_avg_witness :
    (generate_sla_report [tkResponded, tkBreach] 0 50 none).total_tickets
      = (reportTickets [tkResponded, tkBreach] 0 50 none).length
    ∧ (generate_sla_report [tkResponded, tkBreach] 0 50 none).first_response_sla.avg_time_hours
      = round2 (((reportTickets [tkResponded, tkBreach] 0 50 none).map (fun t =>
            match t.first_response_at with
            | some a => a - t.created_at
            | none => 0)).sum
          / ((reportTickets [tkResponded, tkBreach] 0 50 none).countP
              (fun t => t.first_response_at.isSome) : ℚ))
    ∧ (generate_sla_report [tkResponded, tkBreach] 0 50 none).resolution_sla.avg_time_hours
      = round2 (((reportTickets [tkResponded, tkBreach] 0 50 none).map (fun t =>
            match t.resolved_at with
            | some a => a - t.created_at
            | none => 0)).sum
          / ((reportTickets [tkResponded, tkBreach] 0 50 none).countP
              (fun t => t.resolved_at.isSome) : ℚ)) :=
  generate_sla_report_avg [tkResponded, tkBreach] 0 50 none
    (by norm_num [reportTickets, inRange, categoryMatches, tkResponded, tkBreach,
      List.filter])
    (by norm_num [reportTickets, inRange, categoryMatches, tkResponded, tkBreach,
      List.filter])

end SLA
